import Mathlib

/-!
# Conversation orchestration layer: shallow embedding and verification

This file embeds the conversation/session orchestration layer of the todo
chatbot backend (`src/backend/src/api/chat.py`) in Lean 4 and proves the
spec claims about it.

The backing store is modelled as an explicit state `DB` holding the
`conversations` and `messages` tables, a fresh-id supply (modelling UUID
generation) and a logical clock (modelling `utcnow`: each timestamp draw
advances the clock, so successive timestamps are strictly increasing).
Each database-touching Python function becomes a pure state-passing
function; the single `session.commit()` at the end of each Python helper
makes every helper one atomic step on the state, which the embedding
reflects by making each helper a single Lean function from state to state.

SQL queries are embedded as list operations: `WHERE` is `List.filter` /
`List.find?` (`scalar_one_or_none` returns the first match), `ORDER BY` is
the stable `List.insertionSort`, and ORM row deletion (by primary key) is
`List.filter` on the key.

The `src.models` module (entity classes `Conversation`, `Message`,
`MessageRole` and `Conversation.touch`) is not among the provided source
files, so those definitions are modelled from the spec (§3, §4.1), as
marked on their doc comments; the agent collaborator `run_agent` is a
black box per spec §6 and is a function parameter of `chat`.
-/

/-- Modelled from the spec: `src/models.py` is not among the provided source
files. Spec §3 fixes the closed role enumeration `{user, assistant,
tool-system}`; `chat.py` uses `MessageRole.USER` and `MessageRole.ASSISTANT`
and serialises a role with `.value`. -/
inductive MessageRole where
  | user
  | assistant
  | tool
deriving DecidableEq, Repr

/-- Modelled from the spec: string value of a role, as used by
`msg.role.value` in `chat.py`. -/
def MessageRole.value : MessageRole → String
  | .user => "user"
  | .assistant => "assistant"
  | .tool => "tool"

/-- One recorded tool invocation `{tool_name, arguments (mapping), result}`
(spec §3, §6). Arguments are modelled as an association list, the result as
its serialised form. -/
structure ToolCall where
  tool_name : String
  arguments : List (String × String)
  result : String
deriving DecidableEq, Repr

/-- Modelled from the spec: the `Conversation` entity of `src/models.py`
(not among the provided source files): opaque id, owner `user_id`,
`created_at` and `updated_at` timestamps (spec §3, §6 persisted layout). -/
structure Conversation where
  id : Nat
  user_id : String
  created_at : Nat
  updated_at : Nat
deriving DecidableEq, Repr

/-- Modelled from the spec: `Conversation.touch()` advances `updated_at`
to now (spec §4.1). -/
def Conversation.touch (c : Conversation) (now : Nat) : Conversation :=
  { c with updated_at := now }

/-- Modelled from the spec: the `Message` entity of `src/models.py` (not
among the provided source files): opaque id, owning `conversation_id`,
role, content, nullable structured `tool_calls`, `created_at` (spec §3,
§6 persisted layout). `created_at` defaults to now at construction. -/
structure Message where
  id : Nat
  conversation_id : Nat
  role : MessageRole
  content : String
  tool_calls : Option (List ToolCall)
  created_at : Nat
deriving DecidableEq, Repr

/-- The durable store: the two tables of spec §6, a fresh-id supply
(modelling UUID uniqueness) and a logical clock (modelling `utcnow`). -/
structure DB where
  conversations : List Conversation
  messages : List Message
  nextId : Nat
  clock : Nat
deriving DecidableEq, Repr

/-- Well-formedness of a store: ids are unique and below the fresh-id
supply, and all stored timestamps are in the past of the clock. Every
reachable store satisfies this; it is assumed where a proof needs
freshness or uniqueness. -/
def DB.WF (db : DB) : Prop :=
  (db.conversations.map (fun c => c.id)).Nodup ∧
  (∀ c ∈ db.conversations, c.id < db.nextId) ∧
  (∀ m ∈ db.messages, m.id < db.nextId) ∧
  (∀ c ∈ db.conversations, c.updated_at < db.clock) ∧
  (∀ m ∈ db.messages, m.created_at < db.clock)

instance (db : DB) : Decidable db.WF := by
  unfold DB.WF; infer_instance

/-- Chronological message order: `ORDER BY Message.created_at ASC`. -/
def msgLE (a b : Message) : Prop := a.created_at ≤ b.created_at

instance : DecidableRel msgLE := fun a b => Nat.decLe a.created_at b.created_at

instance : IsTotal Message msgLE := ⟨fun a b => Nat.le_total a.created_at b.created_at⟩

instance : IsTrans Message msgLE := ⟨fun _ _ _ h1 h2 => Nat.le_trans h1 h2⟩

/-- Recent-activity order: `ORDER BY Conversation.updated_at DESC`. -/
def convGE (a b : Conversation) : Prop := b.updated_at ≤ a.updated_at

instance : DecidableRel convGE := fun a b => Nat.decLe b.updated_at a.updated_at

instance : IsTotal Conversation convGE := ⟨fun a b => (Nat.le_total a.updated_at b.updated_at).symm⟩

instance : IsTrans Conversation convGE := ⟨fun _ _ _ h1 h2 => Nat.le_trans h2 h1⟩

/-- One `{role, content}` entry of the projected history handed to the
agent collaborator (`load_conversation_history` return value). -/
structure HistoryEntry where
  role : String
  content : String
deriving DecidableEq, Repr

/-- `chat.py` lines 49-75: look up a conversation by id *and* owner
(`scalar_one_or_none` = first match); if found return it unchanged,
otherwise (missing id or wrong owner, or no id supplied) create a fresh
conversation owned by `user_id` with `created_at = updated_at = now`. -/
def get_or_create_conversation (db : DB) (user_id : String)
    (conversation_id : Option Nat) : DB × Conversation :=
  let create : DB × Conversation :=
    let conv : Conversation :=
      { id := db.nextId, user_id := user_id,
        created_at := db.clock, updated_at := db.clock }
    ({ db with conversations := db.conversations ++ [conv],
               nextId := db.nextId + 1, clock := db.clock + 1 }, conv)
  match conversation_id with
  | none => create
  | some cid =>
    match db.conversations.find? (fun c => c.id == cid && c.user_id == user_id) with
    | some conv => (db, conv)
    | none => create

/-- `chat.py` lines 78-89: all messages of the conversation ordered by
`created_at` ascending, projected to `{role, content}`. -/
def load_conversation_history (db : DB) (conversation_id : Nat) :
    List HistoryEntry :=
  ((db.messages.filter (fun m => m.conversation_id == conversation_id)).insertionSort
      msgLE).map (fun m => { role := m.role.value, content := m.content })

/-- `chat.py` lines 92-118: insert a new message (fresh id, `created_at`
drawn at construction), then look up the owning conversation without an
owner filter and, if present, `touch()` it; one commit makes the insert
and the touch a single atomic step. -/
def save_message (db : DB) (conversation_id : Nat) (role : MessageRole)
    (content : String) (tool_calls : Option (List ToolCall)) : DB × Message :=
  let message : Message :=
    { id := db.nextId, conversation_id := conversation_id, role := role,
      content := content, tool_calls := tool_calls, created_at := db.clock }
  let db1 : DB :=
    { db with messages := db.messages ++ [message],
              nextId := db.nextId + 1, clock := db.clock + 1 }
  match db.conversations.find? (fun c => c.id == conversation_id) with
  | some _ =>
    ({ db1 with
        conversations := db1.conversations.map
          (fun c => if c.id == conversation_id then c.touch db1.clock else c),
        clock := db1.clock + 1 }, message)
  | none => (db1, message)

/-- Python's `str.strip()` (`chat.py` line 131): drop leading and trailing
whitespace. Defined structurally over the character list so that it
evaluates by kernel reduction. -/
def pyStrip (s : String) : String :=
  String.mk (((s.data.dropWhile Char.isWhitespace).reverse.dropWhile
    Char.isWhitespace).reverse)

/-- Python's `content[:80]` slice (`chat.py` line 221): the first `n`
code points. Defined structurally over the character list so that it
evaluates by kernel reduction. -/
def pySlice (s : String) (n : Nat) : String :=
  String.mk (s.data.take n)

/-- The agent collaborator's output `{content, tool_calls}` (spec §6). -/
structure AgentResponse where
  content : String
  tool_calls : List ToolCall
deriving DecidableEq, Repr

/-- The agent collaborator: a black box that may fail (`Except.error`
models `run_agent` throwing, with the exception detail as the payload). -/
def Agent : Type :=
  String → String → List HistoryEntry → Except String AgentResponse

/-- Outcome of a chat turn as seen by the caller: success payload, the
400 validation rejection, or the generic 500 failure. -/
inductive ChatOutcome where
  | ok (conversation_id : Nat) (response : String) (tool_calls : List ToolCall)
  | validationError (detail : String)
  | serverError (detail : String)
deriving DecidableEq, Repr

/-- `chat.py` line 135: detail of the 400 rejection of an empty message. -/
def emptyMessageDetail : String :=
  "I didn't catch that. Could you tell me what you'd like to do with your tasks?"

/-- `chat.py` line 186: generic detail of the 500 response; the caught
exception is only logged, never surfaced. -/
def genericErrorDetail : String :=
  "I'm having trouble processing your request right now. Please try again."

/-- `chat.py` line 251/296: detail of the 404 response. -/
def notFoundDetail : String := "Conversation not found."

/-- `chat.py` lines 123-187, the turn orchestrator: trim, reject the empty
message before any persistence, resolve-or-create the conversation,
project history, persist the user message, call the agent, persist the
assistant message (tool calls stored only when non-empty), or on agent
failure keep the user message and answer with the generic 500. -/
def chat (agent : Agent) (db : DB) (user_id : String) (raw_message : String)
    (conversation_id : Option Nat) : DB × ChatOutcome :=
  let message := pyStrip raw_message
  if message = "" then
    (db, .validationError emptyMessageDetail)
  else
    let resolved := get_or_create_conversation db user_id conversation_id
    let db1 := resolved.1
    let conversation := resolved.2
    let history := load_conversation_history db1 conversation.id
    let db2 := (save_message db1 conversation.id .user message none).1
    match agent user_id message history with
    | .error _ => (db2, .serverError genericErrorDetail)
    | .ok agent_response =>
      let tool_calls_data : Option (List ToolCall) :=
        if agent_response.tool_calls.isEmpty then none
        else some agent_response.tool_calls
      let db3 := (save_message db2 conversation.id .assistant
          agent_response.content tool_calls_data).1
      (db3, .ok conversation.id agent_response.content agent_response.tool_calls)

/-- One row of the `list_conversations` response. -/
structure ConversationEntry where
  id : Nat
  created_at : Nat
  updated_at : Nat
  preview : String
deriving DecidableEq, Repr

/-- `chat.py` lines 208-221: the preview query of one conversation — the
earliest user-role message (`ORDER BY created_at ASC LIMIT 1`), its
content truncated to 80 units, or the sentinel when none exists. -/
def conversationPreview (db : DB) (conversation_id : Nat) : String :=
  match ((db.messages.filter
      (fun m => m.conversation_id == conversation_id && m.role == MessageRole.user)).insertionSort
        msgLE).head? with
  | some m => pySlice m.content 80
  | none => "New conversation"

/-- `chat.py` lines 192-230: all conversations owned by the user ordered
by `updated_at` descending, each with its preview. -/
def list_conversations (db : DB) (user_id : String) : List ConversationEntry :=
  ((db.conversations.filter (fun c => c.user_id == user_id)).insertionSort
      convGE).map
    (fun c => { id := c.id, created_at := c.created_at,
                updated_at := c.updated_at,
                preview := conversationPreview db c.id })

/-- `chat.py` lines 233-276: ownership-checked read of a conversation's
messages in chronological order, tool-call payloads verbatim; 404 when
the conversation does not exist for this owner. -/
def get_conversation_messages (db : DB) (user_id : String)
    (conversation_id : Nat) : Except String (List Message) :=
  match db.conversations.find?
      (fun c => c.id == conversation_id && c.user_id == user_id) with
  | none => .error notFoundDetail
  | some _ =>
    .ok ((db.messages.filter
        (fun m => m.conversation_id == conversation_id)).insertionSort msgLE)

/-- `chat.py` lines 279-308: ownership-checked delete — 404 when the
conversation does not exist for this owner; otherwise delete every message
of the conversation and then the conversation row (ORM deletion by
primary key), all under one commit. -/
def delete_conversation (db : DB) (user_id : String)
    (conversation_id : Nat) : Except String DB :=
  match db.conversations.find?
      (fun c => c.id == conversation_id && c.user_id == user_id) with
  | none => .error notFoundDetail
  | some _ =>
    .ok { db with
      messages := db.messages.filter (fun m => m.conversation_id != conversation_id),
      conversations := db.conversations.filter (fun c => c.id != conversation_id) }

/-! ## Sample data for witnesses -/

/-- A conversation owned by alice, used by witnesses. -/
def convA : Conversation :=
  { id := 0, user_id := "alice", created_at := 0, updated_at := 1 }

/-- A user message in alice's conversation, used by witnesses. -/
def msgA1 : Message :=
  { id := 1, conversation_id := 0, role := .user, content := "hello there",
    tool_calls := none, created_at := 1 }

/-- A small concrete well-formed store, used by witnesses. -/
def sampleDB : DB :=
  { conversations := [convA], messages := [msgA1], nextId := 2, clock := 2 }

/-! ## Claims -/

/-- C1: for every owner B and conversation id that does not resolve to a
conversation owned by B (wrong id or owned by someone else),
resolve-or-create does not error and returns a brand-new conversation
owned by B (not present in the prior store, appended to it); when the id
does resolve to a conversation owned by B, that conversation is returned
and the store is unchanged. -/
theorem C1_resolve_or_create (db : DB) (B : String) (cid : Nat) (hwf : db.WF) :
    ((∀ c ∈ db.conversations, ¬(c.id = cid ∧ c.user_id = B)) →
      (get_or_create_conversation db B (some cid)).2.user_id = B ∧
      (get_or_create_conversation db B (some cid)).2 ∉ db.conversations ∧
      (get_or_create_conversation db B (some cid)).1.conversations
        = db.conversations ++ [(get_or_create_conversation db B (some cid)).2]) ∧
    (∀ c ∈ db.conversations, c.id = cid → c.user_id = B →
      get_or_create_conversation db B (some cid) = (db, c)) := by
  obtain ⟨hnodup, hlt, -, -, -⟩ := hwf
  constructor
  · intro hmiss
    have hfind : db.conversations.find? (fun c => c.id == cid && c.user_id == B)
        = none := by
      rw [List.find?_eq_none]
      intro c hc
      simpa using hmiss c hc
    refine ⟨by simp [get_or_create_conversation, hfind], ?_, by simp [get_or_create_conversation, hfind]⟩
    intro hmem
    have := hlt _ hmem
    simp [get_or_create_conversation, hfind] at this
  · intro c hc hcid huser
    have hsome : (db.conversations.find?
        (fun c => c.id == cid && c.user_id == B)).isSome := by
      rw [List.find?_isSome]
      exact ⟨c, hc, by simp [hcid, huser]⟩
    obtain ⟨c', hfind⟩ := Option.isSome_iff_exists.mp hsome
    have hc'mem : c' ∈ db.conversations := List.mem_of_find?_eq_some hfind
    have hc'p := List.find?_some hfind
    simp only [Bool.and_eq_true, beq_iff_eq] at hc'p
    have : c' = c :=
      List.inj_on_of_nodup_map hnodup hc'mem hc (by rw [hc'p.1, hcid])
    subst this
    simp [get_or_create_conversation, hfind]

/-- C1 witness: bob passing alice's conversation id gets a fresh
conversation of his own; alice passing her own id gets it back unchanged. -/
theorem C1_resolve_or_create_witness :
    sampleDB.WF ∧
    ((get_or_create_conversation sampleDB "bob" (some 0)).2.user_id = "bob" ∧
      (get_or_create_conversation sampleDB "bob" (some 0)).2 ∉ sampleDB.conversations ∧
      (get_or_create_conversation sampleDB "bob" (some 0)).1.conversations
        = sampleDB.conversations ++ [(get_or_create_conversation sampleDB "bob" (some 0)).2]) ∧
    get_or_create_conversation sampleDB "alice" (some 0) = (sampleDB, convA) := by
  have hwf : sampleDB.WF := by decide
  refine ⟨hwf, ?_, ?_⟩
  · exact (C1_resolve_or_create sampleDB "bob" 0 hwf).1 (by decide)
  · exact (C1_resolve_or_create sampleDB "alice" 0 hwf).2 convA (by decide)
      (by decide) (by decide)

/-- C2: a message that is empty after trimming is rejected with the
validation error before any persistence: the store returned is exactly
the store passed in — no conversation created or touched, no message
written. -/
theorem C2_empty_message_rejected (agent : Agent) (db : DB)
    (user_id raw : String) (cid : Option Nat) (h : pyStrip raw = "") :
    chat agent db user_id raw cid = (db, .validationError emptyMessageDetail) := by
  simp [chat, h]

/-- C2 witness: a whitespace-only message leaves the sample store intact. -/
theorem C2_empty_message_rejected_witness :
    pyStrip "  " = "" ∧
    chat (fun _ _ _ => .error "boom") sampleDB "alice" "  " none
      = (sampleDB, .validationError emptyMessageDetail) :=
  ⟨by decide, C2_empty_message_rejected (fun _ _ _ => .error "boom") sampleDB
    "alice" "  " none (by decide)⟩

/-- C10: saving a message whose conversation id matches no stored
conversation does not fail: the message is still inserted with the
dangling conversation id, and the conversations table (hence every
timestamp) is left untouched — the missing conversation is never
reported. -/
theorem C10_save_message_dangling (db : DB) (cid : Nat) (role : MessageRole)
    (content : String) (tc : Option (List ToolCall))
    (hmiss : ∀ c ∈ db.conversations, c.id ≠ cid) :
    (save_message db cid role content tc).2.conversation_id = cid ∧
    (save_message db cid role content tc).1.messages
      = db.messages ++ [(save_message db cid role content tc).2] ∧
    (save_message db cid role content tc).1.conversations = db.conversations := by
  have hfind : db.conversations.find? (fun c => c.id == cid) = none := by
    rw [List.find?_eq_none]
    intro c hc
    simpa using hmiss c hc
  simp [save_message, hfind]

/-- C10 witness: saving into a nonexistent conversation id inserts the
message and leaves the conversations table unchanged. -/
theorem C10_save_message_dangling_witness :
    (save_message sampleDB 7 .user "ghost" none).2.conversation_id = 7 ∧
    (save_message sampleDB 7 .user "ghost" none).1.messages
      = sampleDB.messages ++ [(save_message sampleDB 7 .user "ghost" none).2] ∧
    (save_message sampleDB 7 .user "ghost" none).1.conversations
      = sampleDB.conversations :=
  C10_save_message_dangling sampleDB 7 .user "ghost" none (by decide)

/-! ## Helper lemmas about the orchestration steps -/

theorem get_or_create_messages (db : DB) (u : String) (oc : Option Nat) :
    (get_or_create_conversation db u oc).1.messages = db.messages := by
  unfold get_or_create_conversation
  cases oc with
  | none => rfl
  | some cid =>
    cases hf : db.conversations.find? (fun c => c.id == cid && c.user_id == u) <;>
      simp [hf]

theorem load_history_eq_of_messages (db db' : DB) (cid : Nat)
    (h : db.messages = db'.messages) :
    load_conversation_history db cid = load_conversation_history db' cid := by
  unfold load_conversation_history
  rw [h]

theorem get_or_create_history (db : DB) (u : String) (oc : Option Nat) (x : Nat) :
    load_conversation_history (get_or_create_conversation db u oc).1 x
      = load_conversation_history db x :=
  load_history_eq_of_messages _ _ _ (get_or_create_messages db u oc)

theorem save_message_msg (db : DB) (cid : Nat) (r : MessageRole) (ct : String)
    (tc : Option (List ToolCall)) :
    (save_message db cid r ct tc).2
      = { id := db.nextId, conversation_id := cid, role := r, content := ct,
          tool_calls := tc, created_at := db.clock } := by
  unfold save_message
  cases hf : db.conversations.find? (fun c => c.id == cid) <;> simp [hf]

theorem save_message_messages (db : DB) (cid : Nat) (r : MessageRole) (ct : String)
    (tc : Option (List ToolCall)) :
    (save_message db cid r ct tc).1.messages
      = db.messages ++ [(save_message db cid r ct tc).2] := by
  unfold save_message
  cases hf : db.conversations.find? (fun c => c.id == cid) <;> simp [hf]

/-- The validated turn with a failing agent: the state after the user-message
write is returned together with the generic 500. -/
theorem chat_error_spec (agent : Agent) (db : DB) (user_id raw : String)
    (cid : Option Nat) (e : String) (h : ¬ pyStrip raw = "")
    (hag : agent user_id (pyStrip raw)
        (load_conversation_history db (get_or_create_conversation db user_id cid).2.id)
      = .error e) :
    chat agent db user_id raw cid
      = ((save_message (get_or_create_conversation db user_id cid).1
            (get_or_create_conversation db user_id cid).2.id .user (pyStrip raw) none).1,
         .serverError genericErrorDetail) := by
  simp only [chat]
  rw [if_neg h, get_or_create_history, hag]

/-- The validated turn with a succeeding agent: the user write then the
assistant write (tool calls stored only when non-empty), and the success
payload. -/
theorem chat_ok_spec (agent : Agent) (db : DB) (user_id raw : String)
    (cid : Option Nat) (resp : AgentResponse) (h : ¬ pyStrip raw = "")
    (hag : agent user_id (pyStrip raw)
        (load_conversation_history db (get_or_create_conversation db user_id cid).2.id)
      = .ok resp) :
    chat agent db user_id raw cid
      = ((save_message
            (save_message (get_or_create_conversation db user_id cid).1
              (get_or_create_conversation db user_id cid).2.id .user (pyStrip raw) none).1
            (get_or_create_conversation db user_id cid).2.id .assistant resp.content
            (if resp.tool_calls.isEmpty then none else some resp.tool_calls)).1,
         .ok (get_or_create_conversation db user_id cid).2.id resp.content
           resp.tool_calls) := by
  simp only [chat]
  rw [if_neg h, get_or_create_history, hag]

/-- C3: when the agent collaborator throws, the turn answers with the
generic failure detail (a constant, independent of the thrown detail `e`),
and the final store extends the prior one by exactly the persisted user
message — the user message remains stored and no assistant message is
written. -/
theorem C3_agent_failure_keeps_user_message (db : DB) (user_id raw : String)
    (cid : Option Nat) (e : String) (h : ¬ pyStrip raw = "") :
    (chat (fun _ _ _ => .error e) db user_id raw cid).2
      = .serverError genericErrorDetail ∧
    ∃ um : Message, um.role = .user ∧ um.content = pyStrip raw ∧
      um.tool_calls = none ∧
      (chat (fun _ _ _ => .error e) db user_id raw cid).1.messages
        = db.messages ++ [um] := by
  have hspec := chat_error_spec (fun _ _ _ => .error e) db user_id raw cid e h rfl
  rw [hspec]
  refine ⟨rfl, (save_message (get_or_create_conversation db user_id cid).1
      (get_or_create_conversation db user_id cid).2.id .user (pyStrip raw) none).2,
    ?_, ?_, ?_, ?_⟩
  · rw [save_message_msg]
  · rw [save_message_msg]
  · rw [save_message_msg]
  · rw [save_message_messages, get_or_create_messages]

/-- C3 witness: a failing agent on a concrete turn yields the generic 500
while the user message "hi" is appended to the store. -/
theorem C3_agent_failure_keeps_user_message_witness :
    (chat (fun _ _ _ => .error "boom") sampleDB "alice" "hi" none).2
      = .serverError genericErrorDetail ∧
    ∃ um : Message, um.role = .user ∧ um.content = pyStrip "hi" ∧
      um.tool_calls = none ∧
      (chat (fun _ _ _ => .error "boom") sampleDB "alice" "hi" none).1.messages
        = sampleDB.messages ++ [um] :=
  C3_agent_failure_keeps_user_message sampleDB "alice" "hi" none "boom" (by decide)

/-- Concatenation of a projected history into one string; used as the
observable output of an agent that echoes the history it was handed. -/
def histString (h : List HistoryEntry) : String :=
  String.join (h.map (fun entry => entry.role ++ ":" ++ entry.content))

/-- C4: the history handed to the agent collaborator is the projection of
the conversation taken before the new user message is persisted. An agent
that echoes the history it receives answers with the projection of the
*prior* store, and the projection of the final store is two entries longer
(the turn's user and assistant messages) — so the history the agent saw
cannot contain the current turn's message. -/
theorem C4_history_excludes_current_message (db : DB) (user_id raw : String)
    (cid : Option Nat) (h : ¬ pyStrip raw = "") :
    (chat (fun _ _ hist => .ok ⟨histString hist, []⟩) db user_id raw cid).2
      = .ok (get_or_create_conversation db user_id cid).2.id
          (histString (load_conversation_history db
            (get_or_create_conversation db user_id cid).2.id)) [] ∧
    (load_conversation_history
        (chat (fun _ _ hist => .ok ⟨histString hist, []⟩) db user_id raw cid).1
        (get_or_create_conversation db user_id cid).2.id).length
      = (load_conversation_history db
          (get_or_create_conversation db user_id cid).2.id).length + 2 := by
  have hspec := chat_ok_spec (fun _ _ hist => .ok ⟨histString hist, []⟩) db user_id
    raw cid ⟨histString (load_conversation_history db
      (get_or_create_conversation db user_id cid).2.id), []⟩ h rfl
  rw [hspec]
  refine ⟨rfl, ?_⟩
  unfold load_conversation_history
  rw [List.length_map, List.length_map,
    (List.perm_insertionSort msgLE _).length_eq,
    (List.perm_insertionSort msgLE _).length_eq,
    save_message_messages, save_message_messages, get_or_create_messages,
    save_message_msg, save_message_msg, List.append_assoc, List.filter_append]
  simp

/-- C4 witness: on the sample store the echoing agent reports exactly the
pre-turn projection, and the post-turn projection is two entries longer. -/
theorem C4_history_excludes_current_message_witness :
    (chat (fun _ _ hist => .ok ⟨histString hist, []⟩) sampleDB "alice" "hi" none).2
      = .ok (get_or_create_conversation sampleDB "alice" none).2.id
          (histString (load_conversation_history sampleDB
            (get_or_create_conversation sampleDB "alice" none).2.id)) [] ∧
    (load_conversation_history
        (chat (fun _ _ hist => .ok ⟨histString hist, []⟩) sampleDB "alice" "hi" none).1
        (get_or_create_conversation sampleDB "alice" none).2.id).length
      = (load_conversation_history sampleDB
          (get_or_create_conversation sampleDB "alice" none).2.id).length + 2 :=
  C4_history_excludes_current_message sampleDB "alice" "hi" none (by decide)

/-- C9: in a successful turn the persisted user message stores no tool
calls, and the persisted assistant message stores the collaborator's
ordered tool-call list exactly when it is non-empty and stores the absent
marker (never the empty list) when it is empty. -/
theorem C9_tool_call_encoding (db : DB) (user_id raw : String)
    (cid : Option Nat) (content : String) (tcs : List ToolCall)
    (h : ¬ pyStrip raw = "") :
    ∃ um am : Message,
      (chat (fun _ _ _ => .ok ⟨content, tcs⟩) db user_id raw cid).1.messages
        = db.messages ++ [um, am] ∧
      um.role = .user ∧ um.tool_calls = none ∧
      am.role = .assistant ∧ am.content = content ∧
      am.tool_calls = (if tcs.isEmpty then none else some tcs) ∧
      am.tool_calls ≠ some [] := by
  have hspec := chat_ok_spec (fun _ _ _ => .ok ⟨content, tcs⟩) db user_id raw cid
    ⟨content, tcs⟩ h rfl
  rw [hspec]
  refine ⟨(save_message (get_or_create_conversation db user_id cid).1
      (get_or_create_conversation db user_id cid).2.id .user (pyStrip raw) none).2,
    (save_message
      (save_message (get_or_create_conversation db user_id cid).1
        (get_or_create_conversation db user_id cid).2.id .user (pyStrip raw) none).1
      (get_or_create_conversation db user_id cid).2.id .assistant content
      (if tcs.isEmpty then none else some tcs)).2, ?_, ?_, ?_, ?_, ?_, ?_, ?_⟩
  · rw [save_message_messages, save_message_messages, get_or_create_messages,
      List.append_assoc]
    rfl
  · rw [save_message_msg]
  · rw [save_message_msg]
  · rw [save_message_msg]
  · rw [save_message_msg]
  · rw [save_message_msg]
  · rw [save_message_msg]
    cases tcs with
    | nil => simp
    | cons t ts => simp

/-- C9 witness: a turn whose agent performs one tool call stores that
singleton list on the assistant message and nothing on the user message. -/
theorem C9_tool_call_encoding_witness :
    ∃ um am : Message,
      (chat (fun _ _ _ => .ok ⟨"done", [⟨"add_task", [("title", "milk")], "ok"⟩]⟩)
          sampleDB "alice" "hi" none).1.messages
        = sampleDB.messages ++ [um, am] ∧
      um.role = .user ∧ um.tool_calls = none ∧
      am.role = .assistant ∧ am.content = "done" ∧
      am.tool_calls
        = (if ([⟨"add_task", [("title", "milk")], "ok"⟩] : List ToolCall).isEmpty
            then none else some [⟨"add_task", [("title", "milk")], "ok"⟩]) ∧
      am.tool_calls ≠ some [] :=
  C9_tool_call_encoding sampleDB "alice" "hi" none "done"
    [⟨"add_task", [("title", "milk")], "ok"⟩] (by decide)

/-- C5: deletion fails with the 404 detail exactly when no conversation
with that id is owned by the owner; a successful deletion yields, in one
atomic step, a store with no message of the conversation and no such
conversation row (so a subsequent ownership-checked read is a 404), while
every other message and conversation is preserved. -/
theorem C5_delete_conversation_atomic (db : DB) (owner : String) (cid : Nat) :
    ((∀ c ∈ db.conversations, ¬(c.id = cid ∧ c.user_id = owner)) →
      delete_conversation db owner cid = .error notFoundDetail) ∧
    ((∃ c ∈ db.conversations, c.id = cid ∧ c.user_id = owner) →
      ∃ db', delete_conversation db owner cid = .ok db') ∧
    (∀ db', delete_conversation db owner cid = .ok db' →
      (∀ m ∈ db'.messages, m.conversation_id ≠ cid) ∧
      (∀ c ∈ db'.conversations, c.id ≠ cid) ∧
      get_conversation_messages db' owner cid = .error notFoundDetail ∧
      (∀ m ∈ db.messages, m.conversation_id ≠ cid → m ∈ db'.messages) ∧
      (∀ c ∈ db.conversations, c.id ≠ cid → c ∈ db'.conversations)) := by
  refine ⟨?_, ?_, ?_⟩
  · intro hmiss
    have hfind : db.conversations.find?
        (fun c => c.id == cid && c.user_id == owner) = none := by
      rw [List.find?_eq_none]
      intro c hc
      simpa using hmiss c hc
    simp [delete_conversation, hfind]
  · rintro ⟨c, hc, hcid, howner⟩
    have hsome : (db.conversations.find?
        (fun c => c.id == cid && c.user_id == owner)).isSome := by
      rw [List.find?_isSome]
      exact ⟨c, hc, by simp [hcid, howner]⟩
    obtain ⟨c', hfind⟩ := Option.isSome_iff_exists.mp hsome
    refine ⟨{ db with
      messages := db.messages.filter (fun m => m.conversation_id != cid),
      conversations := db.conversations.filter (fun c => c.id != cid) }, ?_⟩
    simp [delete_conversation, hfind]
  · intro db' hdel
    cases hfind : db.conversations.find?
        (fun c => c.id == cid && c.user_id == owner) with
    | none => simp [delete_conversation, hfind] at hdel
    | some c0 =>
      simp only [delete_conversation, hfind, Except.ok.injEq] at hdel
      subst hdel
      refine ⟨?_, ?_, ?_, ?_, ?_⟩
      · intro m hm
        have := (List.mem_filter.mp hm).2
        simpa using this
      · intro c hc
        have := (List.mem_filter.mp hc).2
        simpa using this
      · have hnone : (db.conversations.filter
            (fun c => c.id != cid)).find?
              (fun c => c.id == cid && c.user_id == owner) = none := by
          rw [List.find?_eq_none]
          intro c hc
          have := (List.mem_filter.mp hc).2
          simp only [bne_iff_ne, ne_eq] at this
          simp [this]
        simp [get_conversation_messages, hnone]
      · intro m hm hne
        exact List.mem_filter.mpr ⟨hm, by simpa using hne⟩
      · intro c hc hne
        exact List.mem_filter.mpr ⟨hc, by simpa using hne⟩

/-- The sample store after alice deletes conversation 0: both the
conversation row and its message are gone, used by the C5 witness. -/
def sampleDBAfterDelete : DB :=
  { conversations := [], messages := [], nextId := 2, clock := 2 }

/-- C5 witness: bob's attempt on alice's conversation 0 is a 404
(non-vacuously, via the NotFound branch), while alice's delete of the
same conversation concretely succeeds into `sampleDBAfterDelete`, for
which every guarantee of the success branch is discharged at that
concrete resulting store. -/
theorem C5_delete_conversation_atomic_witness :
    delete_conversation sampleDB "bob" 0 = .error notFoundDetail ∧
    (∃ db', delete_conversation sampleDB "alice" 0 = .ok db') ∧
    delete_conversation sampleDB "alice" 0 = .ok sampleDBAfterDelete ∧
    ((∀ m ∈ sampleDBAfterDelete.messages, m.conversation_id ≠ 0) ∧
      (∀ c ∈ sampleDBAfterDelete.conversations, c.id ≠ 0) ∧
      get_conversation_messages sampleDBAfterDelete "alice" 0
        = .error notFoundDetail ∧
      (∀ m ∈ sampleDB.messages, m.conversation_id ≠ 0 →
        m ∈ sampleDBAfterDelete.messages) ∧
      (∀ c ∈ sampleDB.conversations, c.id ≠ 0 →
        c ∈ sampleDBAfterDelete.conversations)) :=
  ⟨(C5_delete_conversation_atomic sampleDB "bob" 0).1 (by decide),
   (C5_delete_conversation_atomic sampleDB "alice" 0).2.1 (by decide),
   by rfl,
   (C5_delete_conversation_atomic sampleDB "alice" 0).2.2 sampleDBAfterDelete
     (by rfl)⟩

/-- C6: the projection of a conversation is exactly its messages, as a
chronologically sorted (by `created_at`, ascending) permutation of the
conversation's stored messages, each mapped to its `{role, content}` pair
(ids and tool-call payloads dropped); with no stored messages it is the
empty sequence, and it is total so it never errors. -/
theorem C6_projection_sorted_role_content (db : DB) (cid : Nat) :
    ∃ ms : List Message,
      List.Perm ms (db.messages.filter (fun m => m.conversation_id == cid)) ∧
      List.Sorted msgLE ms ∧
      load_conversation_history db cid
        = ms.map (fun m => { role := m.role.value, content := m.content }) ∧
      (db.messages.filter (fun m => m.conversation_id == cid) = [] →
        load_conversation_history db cid = []) := by
  refine ⟨(db.messages.filter (fun m => m.conversation_id == cid)).insertionSort msgLE,
    List.perm_insertionSort msgLE _, List.sorted_insertionSort msgLE _, ?_, ?_⟩
  · rfl
  · intro h
    unfold load_conversation_history
    rw [h]
    rfl

/-- C6 witness: the projection guarantees instantiated on the sample
store, both for a conversation with a message and for an empty one. -/
theorem C6_projection_sorted_role_content_witness :
    (∃ ms : List Message,
      List.Perm ms (sampleDB.messages.filter (fun m => m.conversation_id == 0)) ∧
      List.Sorted msgLE ms ∧
      load_conversation_history sampleDB 0
        = ms.map (fun m => { role := m.role.value, content := m.content }) ∧
      (sampleDB.messages.filter (fun m => m.conversation_id == 0) = [] →
        load_conversation_history sampleDB 0 = [])) ∧
    load_conversation_history sampleDB 5 = [] :=
  ⟨C6_projection_sorted_role_content sampleDB 0, by decide⟩

/-- C7: when the owning conversation exists in a well-formed store, the
single atomic `save_message` step both appends the new message and
advances the conversation's `updated_at` strictly past its prior value
(hence monotonically) and to at least the message's `created_at`; every
other conversation is untouched. There is no resulting state with one of
the two effects and not the other, since the step is one state
transition. -/
theorem C7_save_message_advances_updated_at (db : DB) (cid : Nat)
    (r : MessageRole) (ct : String) (tc : Option (List ToolCall))
    (c : Conversation) (hc : c ∈ db.conversations) (hcid : c.id = cid)
    (hwf : db.WF) :
    (save_message db cid r ct tc).1.messages
      = db.messages ++ [(save_message db cid r ct tc).2] ∧
    (∃ c', c' ∈ (save_message db cid r ct tc).1.conversations ∧ c'.id = cid ∧
      c.updated_at < c'.updated_at ∧
      (save_message db cid r ct tc).2.created_at ≤ c'.updated_at) ∧
    (∀ d ∈ db.conversations, d.id ≠ cid →
      d ∈ (save_message db cid r ct tc).1.conversations) := by
  obtain ⟨-, -, -, hupd, -⟩ := hwf
  have hsome : (db.conversations.find? (fun x => x.id == cid)).isSome := by
    rw [List.find?_isSome]
    exact ⟨c, hc, by simp [hcid]⟩
  obtain ⟨c0, hfind⟩ := Option.isSome_iff_exists.mp hsome
  refine ⟨save_message_messages db cid r ct tc, ?_, ?_⟩
  · refine ⟨c.touch (db.clock + 1), ?_, ?_, ?_, ?_⟩
    · simp only [save_message, hfind]
      exact List.mem_map.mpr ⟨c, hc, by simp [hcid]⟩
    · simpa [Conversation.touch] using hcid
    · exact Nat.lt_of_lt_of_le (hupd c hc) (Nat.le_succ _)
    · rw [save_message_msg]
      exact Nat.le_succ _
  · intro d hd hne
    simp only [save_message, hfind]
    refine List.mem_map.mpr ⟨d, hd, ?_⟩
    simp [hne]

/-- C7 witness: saving an assistant message into alice's existing
conversation appends it and strictly advances that conversation's
`updated_at`. -/
theorem C7_save_message_advances_updated_at_witness :
    (save_message sampleDB 0 .assistant "ok" none).1.messages
      = sampleDB.messages ++ [(save_message sampleDB 0 .assistant "ok" none).2] ∧
    (∃ c', c' ∈ (save_message sampleDB 0 .assistant "ok" none).1.conversations ∧
      c'.id = 0 ∧ convA.updated_at < c'.updated_at ∧
      (save_message sampleDB 0 .assistant "ok" none).2.created_at ≤ c'.updated_at) ∧
    (∀ d ∈ sampleDB.conversations, d.id ≠ 0 →
      d ∈ (save_message sampleDB 0 .assistant "ok" none).1.conversations) :=
  C7_save_message_advances_updated_at sampleDB 0 .assistant "ok" none convA
    (by decide) (by decide) (by decide)

/-- C8: listing for an owner returns exactly that owner's conversations
as a permutation sorted by `updated_at` descending, each mapped to its
row with its preview; and for every conversation id, the preview is the
sentinel when no user-role message is stored, and otherwise is the
content, truncated to 80 units, of a stored user-role message of that
conversation whose `created_at` is minimal among them (the earliest). -/
theorem C8_list_conversations_order_preview (db : DB) (owner : String) :
    (∃ cs : List Conversation,
      List.Perm cs (db.conversations.filter (fun c => c.user_id == owner)) ∧
      List.Sorted convGE cs ∧
      list_conversations db owner
        = cs.map (fun c => { id := c.id, created_at := c.created_at,
                             updated_at := c.updated_at,
                             preview := conversationPreview db c.id })) ∧
    (∀ cid : Nat,
      (db.messages.filter
          (fun m => m.conversation_id == cid && m.role == MessageRole.user) = [] →
        conversationPreview db cid = "New conversation") ∧
      (db.messages.filter
          (fun m => m.conversation_id == cid && m.role == MessageRole.user) ≠ [] →
        ∃ m, m ∈ db.messages ∧ m.conversation_id = cid ∧ m.role = .user ∧
          (∀ m' ∈ db.messages, m'.conversation_id = cid → m'.role = .user →
            m.created_at ≤ m'.created_at) ∧
          conversationPreview db cid = pySlice m.content 80)) := by
  constructor
  · refine ⟨(db.conversations.filter (fun c => c.user_id == owner)).insertionSort convGE,
      List.perm_insertionSort convGE _, List.sorted_insertionSort convGE _, ?_⟩
    rfl
  · intro cid
    constructor
    · intro h
      unfold conversationPreview
      rw [h]
      rfl
    · intro hne
      cases hs : (db.messages.filter
          (fun m => m.conversation_id == cid && m.role == MessageRole.user)).insertionSort
            msgLE with
      | nil =>
        exfalso
        have hlen := (List.perm_insertionSort msgLE (db.messages.filter
          (fun m => m.conversation_id == cid && m.role == MessageRole.user))).length_eq
        rw [hs] at hlen
        exact hne (List.length_eq_zero.mp hlen.symm)
      | cons m rest =>
        have hsorted := List.sorted_insertionSort msgLE (db.messages.filter
          (fun m => m.conversation_id == cid && m.role == MessageRole.user))
        rw [hs] at hsorted
        have hmemf : m ∈ db.messages.filter
            (fun m => m.conversation_id == cid && m.role == MessageRole.user) :=
          (List.perm_insertionSort msgLE _).mem_iff.mp
            (by rw [hs]; exact List.mem_cons_self m rest)
        obtain ⟨hmemdb, hpred⟩ := List.mem_filter.mp hmemf
        simp only [Bool.and_eq_true, beq_iff_eq] at hpred
        refine ⟨m, hmemdb, hpred.1, hpred.2, ?_, ?_⟩
        · intro m' hm' hcid' hrole'
          have hm'f : m' ∈ (db.messages.filter
              (fun m => m.conversation_id == cid && m.role == MessageRole.user)).insertionSort
                msgLE :=
            (List.perm_insertionSort msgLE _).mem_iff.mpr
              (List.mem_filter.mpr ⟨hm', by simp [hcid', hrole']⟩)
          rw [hs] at hm'f
          rcases List.mem_cons.mp hm'f with heq | hmem
          · rw [heq]
          · exact List.rel_of_sorted_cons hsorted m' hmem
        · unfold conversationPreview
          rw [hs]
          rfl

/-- C8 witness: on the sample store, alice's listing carries the preview
"hello there" (her earliest user message) and all order and preview
guarantees hold. -/
theorem C8_list_conversations_order_preview_witness :
    ((∃ cs : List Conversation,
      List.Perm cs (sampleDB.conversations.filter (fun c => c.user_id == "alice")) ∧
      List.Sorted convGE cs ∧
      list_conversations sampleDB "alice"
        = cs.map (fun c => { id := c.id, created_at := c.created_at,
                             updated_at := c.updated_at,
                             preview := conversationPreview sampleDB c.id })) ∧
    (∀ cid : Nat,
      (sampleDB.messages.filter
          (fun m => m.conversation_id == cid && m.role == MessageRole.user) = [] →
        conversationPreview sampleDB cid = "New conversation") ∧
      (sampleDB.messages.filter
          (fun m => m.conversation_id == cid && m.role == MessageRole.user) ≠ [] →
        ∃ m, m ∈ sampleDB.messages ∧ m.conversation_id = cid ∧ m.role = .user ∧
          (∀ m' ∈ sampleDB.messages, m'.conversation_id = cid → m'.role = .user →
            m.created_at ≤ m'.created_at) ∧
          conversationPreview sampleDB cid = pySlice m.content 80))) ∧
    conversationPreview sampleDB 0 = "hello there" :=
  ⟨C8_list_conversations_order_preview sampleDB "alice", by decide⟩
